import Mathlib

/-!
Shallow embedding of pypremis (src/pypremis/lib.py): the identifier-indexed
node aggregate (NodeSet, PremisRecord) together with the import/export
boundary. Python dictionaries are modelled as association lists with the
usual dictionary semantics: assignment to an existing key replaces the value
in place, assignment to a fresh key appends at the end, and enumeration
follows key insertion order.
-/

/-- Identifier: a (type, value) pair, the unit of uniqueness. The spec defines
equality componentwise, case sensitive, with no normalization. -/
structure Identifier where
  idType : String
  idValue : String
deriving DecidableEq, Repr

/-- Registry key built from an identifier, as in NodeSet.append in lib.py:
the identifier type and identifier value joined by a colon. -/
def Identifier.key (i : Identifier) : String :=
  i.idType ++ ":" ++ i.idValue

/-- Modelled from the spec: the schema field-level node classes live in
pypremis/nodes.py, which is not under src/. Per the spec each record
variant carries an ordered, non-empty sequence of Identifiers (Event:
exactly one, still accessed positionally by the code) plus schema fields
opaque to the core. The non-empty identifier sequence is represented as a
head identifier plus the remaining identifiers; the opaque fields are a
single string. -/
structure NodeData where
  firstId : Identifier
  restIds : List Identifier
  fields : String
deriving DecidableEq, Repr

/-- Modelled from the spec: the four record variants (Object, Event, Agent,
Rights) as a closed union. The code dispatches on the runtime type of the
node; here that dispatch is a pattern match on the constructor. -/
inductive PremisNode where
  | object : NodeData → PremisNode
  | event : NodeData → PremisNode
  | agent : NodeData → PremisNode
  | rights : NodeData → PremisNode
deriving DecidableEq, Repr

def PremisNode.data : PremisNode → NodeData
  | .object d => d
  | .event d => d
  | .agent d => d
  | .rights d => d

/-- The full identifier list of a node: the head identifier followed by the
rest (non-empty by construction, as the schema guarantees). -/
def PremisNode.identifiers (n : PremisNode) : List Identifier :=
  n.data.firstId :: n.data.restIds

/-- The registry key the code computes for a node: the joined type and value
of the identifier at position 0, whatever the kind. -/
def PremisNode.key (n : PremisNode) : String :=
  n.data.firstId.key

def PremisNode.isObject : PremisNode → Bool
  | .object _ => true
  | _ => false

def PremisNode.isEvent : PremisNode → Bool
  | .event _ => true
  | _ => false

def PremisNode.isAgent : PremisNode → Bool
  | .agent _ => true
  | _ => false

def PremisNode.isRights : PremisNode → Bool
  | .rights _ => true
  | _ => false

/-- Python dictionary assignment d[k] = v on an association list: if the key
is present, the value is replaced in place (key order kept); otherwise the
pair is appended at the end. -/
def dictInsert : List (String × PremisNode) → String → PremisNode →
    List (String × PremisNode)
  | [], k, v => [(k, v)]
  | p :: rest, k, v =>
      if p.1 = k then (k, v) :: rest else p :: dictInsert rest k v

/-- NodeSet (lib.py): a container holding pypremis nodes indexed by the
joined identifier string, backed by a Python dict. -/
structure NodeSet where
  nodes : List (String × PremisNode)
deriving DecidableEq, Repr

/-- The fresh NodeSet produced by NodeSet.__init__ (the node_list argument
is accepted but ignored by the code: the body under it is a bare pass). -/
def NodeSet.empty : NodeSet := ⟨[]⟩

/-- NodeSet.append (lib.py lines 49 to 78): dispatch on the runtime type of
the node, read the identifier at position 0 through the kind-specific
getters, join type and value with a colon, and assign the node into the
dict under that key. Note what the code does NOT do: it raises no error on
a colliding key (dict assignment replaces the stored node silently) and it
registers none of the identifiers beyond position 0. -/
def NodeSet.append (ns : NodeSet) (node : PremisNode) : NodeSet :=
  match node with
  | .object d => ⟨dictInsert ns.nodes (d.firstId.idType ++ ":" ++ d.firstId.idValue) node⟩
  | .event d => ⟨dictInsert ns.nodes (d.firstId.idType ++ ":" ++ d.firstId.idValue) node⟩
  | .agent d => ⟨dictInsert ns.nodes (d.firstId.idType ++ ":" ++ d.firstId.idValue) node⟩
  | .rights d => ⟨dictInsert ns.nodes (d.firstId.idType ++ ":" ++ d.firstId.idValue) node⟩

/-- NodeSet.get_nodes with a single string identifier: a Python dict lookup
self.nodes[identifier]. A missing key raises KeyError in Python, modelled
as none. -/
def NodeSet.getNode (ns : NodeSet) (identifier : String) : Option PremisNode :=
  (ns.nodes.find? (fun p => p.1 == identifier)).map (fun p => p.2)

/-- NodeSet.get_nodes with a list of identifiers: the list comprehension of
dict lookups; one missing key fails the whole call (KeyError), modelled as
none. -/
def NodeSet.getNodesList (ns : NodeSet) (identifiers : List String) :
    Option (List PremisNode) :=
  identifiers.mapM ns.getNode

/-- NodeSet.get_nodes with identifier None: self.nodes.values(), the stored
nodes in key insertion order. -/
def NodeSet.allNodes (ns : NodeSet) : List PremisNode :=
  ns.nodes.map (fun p => p.2)

/-- Modelled from the spec: the tree node a record projects to (the toXML
method lives in pypremis/nodes.py, not under src/). The projection is
lossless per the spec, so the element is represented by the record it
projects. -/
structure TreeElem where
  ofNode : PremisNode
deriving DecidableEq, Repr

/-- Modelled from the spec: the per-record tree projection used by the
export path. -/
def PremisNode.toXML (n : PremisNode) : TreeElem :=
  ⟨n⟩

/-- An ElementTree document: root attributes (a dict of string pairs) and
the child elements appended under the root. -/
structure ETDocument where
  attrs : List (String × String)
  children : List TreeElem
deriving DecidableEq, Repr

/-- ElementTree root.set(k, v): dict-style attribute assignment, with the
same replace-in-place-or-append-at-end semantics as dictInsert. -/
def attrSet : List (String × String) → String → String → List (String × String)
  | [], k, v => [(k, v)]
  | p :: rest, k, v =>
      if p.1 = k then (k, v) :: rest else p :: attrSet rest k v

/-- Modelled from the spec: the import boundary (pypremis/factories.py is
not under src/). A factory built from a document location exposes
find_events, find_agents, find_rights and find_objects, each returning the
fully constructed typed records of that kind parsed from the document, in
document order. -/
structure ImportFactory where
  find_events : List PremisNode
  find_agents : List PremisNode
  find_rights : List PremisNode
  find_objects : List PremisNode

/-- Modelled from the spec: XMLNodeFactory applied to a parsed document
yields, per kind, the records of that kind among the document children, in
document order. -/
def XMLNodeFactory (doc : ETDocument) : ImportFactory :=
  { find_events := (doc.children.map TreeElem.ofNode).filter PremisNode.isEvent
    find_agents := (doc.children.map TreeElem.ofNode).filter PremisNode.isAgent
    find_rights := (doc.children.map TreeElem.ofNode).filter PremisNode.isRights
    find_objects := (doc.children.map TreeElem.ofNode).filter PremisNode.isObject }

/-- PremisRecord (lib.py): four per-kind NodeSet registries plus the
optional provenance filepath. -/
structure PremisRecord where
  objects_list : NodeSet
  events_list : NodeSet
  agents_list : NodeSet
  rights_list : NodeSet
  filepath : Option String
deriving DecidableEq, Repr

/-- PremisRecord.add_object: routes to the objects registry. -/
def PremisRecord.add_object (r : PremisRecord) (obj : PremisNode) : PremisRecord :=
  { r with objects_list := r.objects_list.append obj }

/-- PremisRecord.add_event: routes to the events registry. -/
def PremisRecord.add_event (r : PremisRecord) (event : PremisNode) : PremisRecord :=
  { r with events_list := r.events_list.append event }

/-- PremisRecord.add_agent: routes to the agents registry. -/
def PremisRecord.add_agent (r : PremisRecord) (agent : PremisNode) : PremisRecord :=
  { r with agents_list := r.agents_list.append agent }

/-- PremisRecord.add_rights: routes to the rights registry. -/
def PremisRecord.add_rights (r : PremisRecord) (rights : PremisNode) : PremisRecord :=
  { r with rights_list := r.rights_list.append rights }

/-- PremisRecord.get_object (lib.py lines 222 to 235): the body is a bare
pass, so the call returns None whatever the record holds. -/
def PremisRecord.get_object (_r : PremisRecord) (_objID : String) : Option PremisNode :=
  none

/-- PremisRecord.get_event (lib.py lines 187 to 200): the body is a bare
pass, so the call returns None whatever the record holds. -/
def PremisRecord.get_event (_r : PremisRecord) (_eventID : String) : Option PremisNode :=
  none

/-- PremisRecord.get_agent (lib.py lines 257 to 270): the body is a bare
pass, so the call returns None whatever the record holds. -/
def PremisRecord.get_agent (_r : PremisRecord) (_agentID : String) : Option PremisNode :=
  none

/-- PremisRecord.get_rights (lib.py lines 292 to 305): the body is a bare
pass, so the call returns None whatever the record holds. -/
def PremisRecord.get_rights (_r : PremisRecord) (_rightsID : String) : Option PremisNode :=
  none

/-- PremisRecord.get_object_list. -/
def PremisRecord.get_object_list (r : PremisRecord) : List PremisNode :=
  r.objects_list.allNodes

/-- PremisRecord.get_event_list. -/
def PremisRecord.get_event_list (r : PremisRecord) : List PremisNode :=
  r.events_list.allNodes

/-- PremisRecord.get_agent_list. -/
def PremisRecord.get_agent_list (r : PremisRecord) : List PremisNode :=
  r.agents_list.allNodes

/-- PremisRecord.get_rights_list. -/
def PremisRecord.get_rights_list (r : PremisRecord) : List PremisNode :=
  r.rights_list.allNodes

/-- PremisRecord.__iter__: yields the object list, then the event list, then
the rights list, then the agent list. -/
def PremisRecord.iterList (r : PremisRecord) : List PremisNode :=
  r.get_object_list ++ r.get_event_list ++ r.get_rights_list ++ r.get_agent_list

/-- PremisRecord.__eq__ restricted to PremisRecord operands (on a
non-PremisRecord operand the code returns False before the scans): every
node yielded by self must be a member of other and vice versa, membership
being Python in, which compares by value. -/
def PremisRecord.eq (a b : PremisRecord) : Bool :=
  (a.iterList.all fun x => b.iterList.contains x) &&
  (b.iterList.all fun x => a.iterList.contains x)

/-- PremisRecord.populate_from_file with an already-built factory: add each
found event, then each agent, then each rights record, then each object, in
that fixed order. The process-global ET.register_namespace side effects at
the end of the Python function touch no record state and are not modelled. -/
def PremisRecord.populate_from_file (r : PremisRecord) (factory : ImportFactory) :
    PremisRecord :=
  let r1 := factory.find_events.foldl PremisRecord.add_event r
  let r2 := factory.find_agents.foldl PremisRecord.add_agent r1
  let r3 := factory.find_rights.foldl PremisRecord.add_rights r2
  factory.find_objects.foldl PremisRecord.add_object r3

/-- Python truthiness of an optional list argument: None and the empty list
are falsy, a non-empty list is truthy. -/
def listTruthy : Option (List PremisNode) → Bool
  | none => false
  | some l => !l.isEmpty

/-- Python truthiness of an optional string argument: None and the empty
string are falsy. -/
def strTruthy : Option String → Bool
  | none => false
  | some s => !s.isEmpty

/-- The else branch of PremisRecord.__init__: for each truthy sequence, add
its records one by one in the order objects, events, agents, rights. A
falsy argument (None or an empty list) contributes nothing, which is the
same as folding over the empty list. -/
def PremisRecord.initDirect (base : PremisRecord)
    (objects events agents rights : Option (List PremisNode)) : PremisRecord :=
  let r1 := (objects.getD []).foldl PremisRecord.add_object base
  let r2 := (events.getD []).foldl PremisRecord.add_event r1
  let r3 := (agents.getD []).foldl PremisRecord.add_agent r2
  (rights.getD []).foldl PremisRecord.add_rights r3

/-- PremisRecord.__init__ (lib.py lines 96 to 141). The fs argument models
the external world: it maps a document location to the import factory built
over it (XMLNodeFactory(filepath) in the code). The guard raises ValueError
when frompath and the record sequences are both truthy or both falsy;
otherwise the four registries start empty and filepath starts as None, and
either the file populates the record (truthy frompath, which also sets
filepath) or the supplied sequences do. -/
def PremisRecord.init (fs : String → ImportFactory)
    (objects events agents rights : Option (List PremisNode))
    (frompath : Option String) : Except String PremisRecord :=
  if (strTruthy frompath &&
        (listTruthy objects || listTruthy events || listTruthy agents || listTruthy rights))
      ||
     (!strTruthy frompath &&
        !(listTruthy objects || listTruthy events || listTruthy agents || listTruthy rights)) then
    Except.error ("Must supply either a valid file or at least one array of valid PREMIS objects.")
  else
    let base : PremisRecord := ⟨NodeSet.empty, NodeSet.empty, NodeSet.empty, NodeSet.empty, none⟩
    match frompath with
    | some p =>
        if p.isEmpty then
          Except.ok (PremisRecord.initDirect base objects events agents rights)
        else
          Except.ok (PremisRecord.populate_from_file { base with filepath := some p } (fs p))
    | none => Except.ok (PremisRecord.initDirect base objects events agents rights)

/-- PremisRecord.to_tree: build the root element, set the two namespace
declarations and the version attribute, then append the tree projection of
every node yielded by iteration. -/
def PremisRecord.to_tree (r : PremisRecord) : ETDocument :=
  let a1 := attrSet [] "xmlns:premis" "http://www.loc.gov/premis/v3"
  let a2 := attrSet a1 "xmlns:xsi" "http://www.w3.org/2001/XMLSchema-instance"
  let a3 := attrSet a2 "version" "3.0"
  { attrs := a3
    children := r.iterList.foldl (fun cs entry => cs ++ [entry.toXML]) [] }

/-! Helper lemmas about the registry dictionary. -/

lemma NodeSet.append_eq (ns : NodeSet) (n : PremisNode) :
    ns.append n = ⟨dictInsert ns.nodes n.key n⟩ := by
  cases n <;> rfl

lemma dictInsert_fresh (d : List (String × PremisNode)) (k : String) (v : PremisNode)
    (h : k ∉ d.map Prod.fst) : dictInsert d k v = d ++ [(k, v)] := by
  induction d with
  | nil => rfl
  | cons p rest ih =>
      simp only [List.map_cons, List.mem_cons] at h
      push_neg at h
      have h1 : ¬ p.1 = k := fun he => h.1 he.symm
      simp only [dictInsert, if_neg h1]
      rw [ih h.2]
      rfl

lemma keys_dictInsert_mem (d : List (String × PremisNode)) (k : String) (v : PremisNode)
    (h : k ∈ d.map Prod.fst) :
    (dictInsert d k v).map Prod.fst = d.map Prod.fst := by
  induction d with
  | nil => simp at h
  | cons p rest ih =>
      by_cases hpk : p.1 = k
      · simp only [dictInsert, if_pos hpk, List.map_cons]
        rw [hpk]
      · have h' : k ∈ rest.map Prod.fst := by
          simp only [List.map_cons, List.mem_cons] at h
          rcases h with h | h
          · exact absurd h.symm hpk
          · exact h
        simp only [dictInsert, if_neg hpk, List.map_cons, ih h']

lemma dictInsert_forall (P : String × PremisNode → Prop)
    (d : List (String × PremisNode)) (k : String) (v : PremisNode)
    (hd : ∀ p ∈ d, P p) (hkv : P (k, v)) :
    ∀ p ∈ dictInsert d k v, P p := by
  induction d with
  | nil =>
      intro p hp
      simp only [dictInsert, List.mem_singleton] at hp
      subst hp
      exact hkv
  | cons q rest ih =>
      intro p hp
      by_cases hqk : q.1 = k
      · simp only [dictInsert, if_pos hqk, List.mem_cons] at hp
        rcases hp with hp | hp
        · subst hp; exact hkv
        · exact hd p (by simp [hp])
      · simp only [dictInsert, if_neg hqk, List.mem_cons] at hp
        rcases hp with hp | hp
        · subst hp; exact hd p (by simp)
        · exact ih (fun q hq => hd q (by simp [hq])) p hp

/-- Well-formed registry dictionary: keys are pairwise distinct, and every
stored pair maps the key the code computes for its node. Both hold for
every NodeSet the code can build. -/
def NodeSet.WF (ns : NodeSet) : Prop :=
  (ns.nodes.map Prod.fst).Nodup ∧ ∀ p ∈ ns.nodes, p.1 = p.2.key

lemma NodeSet.WF_empty : NodeSet.empty.WF := by
  constructor
  · simp [NodeSet.empty]
  · intro p hp
    simp [NodeSet.empty] at hp

lemma NodeSet.WF_append (ns : NodeSet) (n : PremisNode) (h : ns.WF) :
    (ns.append n).WF := by
  rw [NodeSet.append_eq]
  rcases h with ⟨hnd, hkc⟩
  constructor
  · by_cases hmem : n.key ∈ ns.nodes.map Prod.fst
    · rw [keys_dictInsert_mem _ _ _ hmem]
      exact hnd
    · rw [dictInsert_fresh _ _ _ hmem, List.map_append, List.nodup_append]
      refine ⟨hnd, by simp, ?_⟩
      intro a ha ha'
      simp only [List.map_cons, List.map_nil, List.mem_singleton] at ha'
      subst ha'
      exact hmem ha
  · exact dictInsert_forall _ _ _ _ hkc rfl

lemma NodeSet.WF_foldl (l : List PremisNode) (ns : NodeSet) (h : ns.WF) :
    (l.foldl NodeSet.append ns).WF := by
  induction l generalizing ns with
  | nil => exact h
  | cons x xs ih => exact ih _ (ns.WF_append x h)

lemma NodeSet.allP_append (P : PremisNode → Bool) (ns : NodeSet) (n : PremisNode)
    (hns : ∀ p ∈ ns.nodes, P p.2 = true) (hn : P n = true) :
    ∀ p ∈ (ns.append n).nodes, P p.2 = true := by
  rw [NodeSet.append_eq]
  exact dictInsert_forall (fun p => P p.2 = true) _ _ _ hns hn

lemma NodeSet.allP_foldl (P : PremisNode → Bool) (l : List PremisNode) (ns : NodeSet)
    (hns : ∀ p ∈ ns.nodes, P p.2 = true) (hl : ∀ n ∈ l, P n = true) :
    ∀ p ∈ (l.foldl NodeSet.append ns).nodes, P p.2 = true := by
  induction l generalizing ns with
  | nil => exact hns
  | cons x xs ih =>
      exact ih _ (ns.allP_append P x hns (hl x (by simp)))
        (fun n hn => hl n (by simp [hn]))

lemma NodeSet.foldl_append_values (l : List (String × PremisNode)) (ns0 : NodeSet)
    (hnd : ((ns0.nodes.map Prod.fst) ++ l.map Prod.fst).Nodup)
    (hkc : ∀ p ∈ l, p.1 = p.2.key) :
    (l.map Prod.snd).foldl NodeSet.append ns0 = ⟨ns0.nodes ++ l⟩ := by
  induction l generalizing ns0 with
  | nil => simp
  | cons q rest ih =>
      obtain ⟨k, n⟩ := q
      have hk : k = n.key := hkc (k, n) (by simp)
      have hfresh : k ∉ ns0.nodes.map Prod.fst := by
        intro hmem
        have hdisj := (List.nodup_append.mp hnd).2.2
        exact hdisj hmem (by simp)
      have hstep : ns0.append n = ⟨ns0.nodes ++ [(k, n)]⟩ := by
        rw [NodeSet.append_eq, ← hk, dictInsert_fresh _ _ _ hfresh]
      have hnd' : (((ns0.nodes ++ [(k, n)]).map Prod.fst) ++ rest.map Prod.fst).Nodup := by
        rw [List.map_append, List.append_assoc]
        simpa using hnd
      have ihr := ih ⟨ns0.nodes ++ [(k, n)]⟩ hnd'
        (fun p hp => hkc p (by simp [hp]))
      simp only [List.map_cons, List.foldl_cons, hstep]
      rw [ihr]
      simp

lemma NodeSet.refold (ns : NodeSet) (h : ns.WF) :
    ns.allNodes.foldl NodeSet.append NodeSet.empty = ns := by
  have hv : ns.allNodes = ns.nodes.map Prod.snd := rfl
  have := NodeSet.foldl_append_values ns.nodes NodeSet.empty
    (by simpa [NodeSet.empty] using h.1) h.2
  rw [hv, this]
  simp [NodeSet.empty]

/-! Helper lemmas about PremisRecord operations. -/

lemma foldl_add_object_eq (l : List PremisNode) (r : PremisRecord) :
    l.foldl PremisRecord.add_object r =
      { r with objects_list := l.foldl NodeSet.append r.objects_list } := by
  induction l generalizing r with
  | nil => rfl
  | cons x xs ih => simp [List.foldl_cons, PremisRecord.add_object, ih]

lemma foldl_add_event_eq (l : List PremisNode) (r : PremisRecord) :
    l.foldl PremisRecord.add_event r =
      { r with events_list := l.foldl NodeSet.append r.events_list } := by
  induction l generalizing r with
  | nil => rfl
  | cons x xs ih => simp [List.foldl_cons, PremisRecord.add_event, ih]

lemma foldl_add_agent_eq (l : List PremisNode) (r : PremisRecord) :
    l.foldl PremisRecord.add_agent r =
      { r with agents_list := l.foldl NodeSet.append r.agents_list } := by
  induction l generalizing r with
  | nil => rfl
  | cons x xs ih => simp [List.foldl_cons, PremisRecord.add_agent, ih]

lemma foldl_add_rights_eq (l : List PremisNode) (r : PremisRecord) :
    l.foldl PremisRecord.add_rights r =
      { r with rights_list := l.foldl NodeSet.append r.rights_list } := by
  induction l generalizing r with
  | nil => rfl
  | cons x xs ih => simp [List.foldl_cons, PremisRecord.add_rights, ih]

lemma populate_from_file_eq (r : PremisRecord) (f : ImportFactory) :
    r.populate_from_file f =
      { r with
        events_list := f.find_events.foldl NodeSet.append r.events_list
        agents_list := f.find_agents.foldl NodeSet.append r.agents_list
        rights_list := f.find_rights.foldl NodeSet.append r.rights_list
        objects_list := f.find_objects.foldl NodeSet.append r.objects_list } := by
  simp [PremisRecord.populate_from_file, foldl_add_event_eq, foldl_add_agent_eq,
    foldl_add_rights_eq, foldl_add_object_eq]

lemma to_tree_children_eq (r : PremisRecord) :
    (r.to_tree).children = r.iterList.map PremisNode.toXML := by
  have h : ∀ (l : List PremisNode) (acc : List TreeElem),
      l.foldl (fun cs entry => cs ++ [entry.toXML]) acc = acc ++ l.map PremisNode.toXML := by
    intro l
    induction l with
    | nil => intro acc; simp
    | cons x xs ih => intro acc; simp [ih]
  simpa [PremisRecord.to_tree] using h r.iterList []

lemma eq_true_of_iterList_eq (a b : PremisRecord) (h : a.iterList = b.iterList) :
    PremisRecord.eq a b = true := by
  simp only [PremisRecord.eq, Bool.and_eq_true, List.all_eq_true]
  constructor
  · intro x hx
    rw [h] at hx
    exact List.elem_iff.mpr hx
  · intro x hx
    rw [← h] at hx
    exact List.elem_iff.mpr hx

/-! Claim theorems. -/

/-- Two event records that share the identifier (stupid, 1) but differ in
their other fields, as in the repository test
tests/premisrecord_tests.py (test_duplicate_identifier_fails). -/
def dupE1 : PremisNode := .event ⟨⟨"stupid", "1"⟩, [], "something / now"⟩

def dupE2 : PremisNode := .event ⟨⟨"stupid", "1"⟩, [], "something else / later"⟩

/-- C1: the claim says inserting a record whose identifier collides with an
already-stored record of the same kind fails with DuplicateIdentifierError
and leaves the registry unchanged. The code does neither: NodeSet.append
never raises, and the colliding dict assignment silently replaces the
stored record. Evaluated here at the exact scenario of the repository test:
the two colliding events are distinct records with equal identifiers, the
second append replaces the first in the registry, and constructing a
PremisRecord from both events returns a record holding only the second
event instead of failing. -/
theorem C1_duplicate_insertion_silently_replaces :
    dupE1 ≠ dupE2 ∧
    dupE1.identifiers = dupE2.identifiers ∧
    (NodeSet.empty.append dupE1).append dupE2 = ⟨[("stupid:1", dupE2)]⟩ ∧
    PremisRecord.init (fun _ => ⟨[], [], [], []⟩) none (some [dupE1, dupE2]) none none none
      = Except.ok ⟨NodeSet.empty, ⟨[("stupid:1", dupE2)]⟩, NodeSet.empty, NodeSet.empty, none⟩ := by
  refine ⟨by decide, rfl, rfl, rfl⟩

/-- An object record carrying two distinct identifiers, (local, A) and
(local, B). -/
def multiIdObj : PremisNode := .object ⟨⟨"local", "A"⟩, [⟨"local", "B"⟩], "payload"⟩

/-- C2: the claim says a stored record carrying two distinct identifiers is
retrievable by either one, both resolving to the same record. The code
registers only the identifier at position 0: after appending the two-identifier
object, lookup under the first identifier key succeeds, but lookup under the
second identifier key finds nothing (a KeyError in Python). -/
theorem C2_second_identifier_is_not_registered :
    multiIdObj.identifiers = [⟨"local", "A"⟩, ⟨"local", "B"⟩] ∧
    (NodeSet.empty.append multiIdObj).getNode "local:A" = some multiIdObj ∧
    (NodeSet.empty.append multiIdObj).getNode "local:B" = none := by
  refine ⟨rfl, rfl, rfl⟩

/-- An event stored under the key local:E1, used to exhibit the get_event
stub. -/
def storedEv : PremisNode := .event ⟨⟨"local", "E1"⟩, [], "ingest"⟩

/-- C3: the claim says get_object, get_event, get_agent and get_rights
return the stored record matching the identifier when one is present and
None otherwise. The bodies of all four methods are bare pass statements, so
every call returns None whatever the record holds: here a record whose
events registry demonstrably stores a matching event under the queried key
still gets None back from get_event. -/
theorem C3_kind_lookups_always_return_none :
    (∀ (r : PremisRecord) (s : String),
      r.get_object s = none ∧ r.get_event s = none ∧
      r.get_agent s = none ∧ r.get_rights s = none) ∧
    (((⟨NodeSet.empty, NodeSet.empty, NodeSet.empty, NodeSet.empty,
        none⟩ : PremisRecord).add_event storedEv).events_list.getNode "local:E1"
        = some storedEv ∧
     ((⟨NodeSet.empty, NodeSet.empty, NodeSet.empty, NodeSet.empty,
        none⟩ : PremisRecord).add_event storedEv).get_event "local:E1" = none) := by
  exact ⟨fun r s => ⟨rfl, rfl, rfl, rfl⟩, rfl, rfl⟩

/-- C4: PremisRecord equality is the two-sided membership scan: a == b holds
exactly when every node stored in any of the four registries of a is
present by value in some registry of b, and conversely. Membership is value
equality, so the check is insensitive to ordering and does not treat
value-equal duplicates specially. -/
theorem C4_eq_iff_set_equivalence (a b : PremisRecord) :
    PremisRecord.eq a b = true ↔
      ((∀ x, (x ∈ a.objects_list.allNodes ∨ x ∈ a.events_list.allNodes ∨
              x ∈ a.rights_list.allNodes ∨ x ∈ a.agents_list.allNodes) →
             (x ∈ b.objects_list.allNodes ∨ x ∈ b.events_list.allNodes ∨
              x ∈ b.rights_list.allNodes ∨ x ∈ b.agents_list.allNodes)) ∧
       (∀ x, (x ∈ b.objects_list.allNodes ∨ x ∈ b.events_list.allNodes ∨
              x ∈ b.rights_list.allNodes ∨ x ∈ b.agents_list.allNodes) →
             (x ∈ a.objects_list.allNodes ∨ x ∈ a.events_list.allNodes ∨
              x ∈ a.rights_list.allNodes ∨ x ∈ a.agents_list.allNodes))) := by
  simp only [PremisRecord.eq, Bool.and_eq_true, List.all_eq_true, List.elem_iff,
    PremisRecord.iterList, PremisRecord.get_object_list, PremisRecord.get_event_list,
    PremisRecord.get_rights_list, PremisRecord.get_agent_list, List.mem_append, or_assoc]

/-- C9: with frompath equal to None and every record-sequence argument
either absent (None) or an explicitly supplied empty list, the truthiness
guard in PremisRecord.__init__ sees no source at all and raises ValueError:
an intentionally empty aggregate cannot be constructed directly. -/
theorem C9_empty_sequences_indistinguishable_from_absent
    (fs : String → ImportFactory)
    (objects events agents rights : Option (List PremisNode))
    (ho : objects = none ∨ objects = some [])
    (he : events = none ∨ events = some [])
    (ha : agents = none ∨ agents = some [])
    (hr : rights = none ∨ rights = some []) :
    PremisRecord.init fs objects events agents rights none =
      Except.error
        "Must supply either a valid file or at least one array of valid PREMIS objects." := by
  have lo : listTruthy objects = false := by rcases ho with h | h <;> simp [h, listTruthy]
  have le : listTruthy events = false := by rcases he with h | h <;> simp [h, listTruthy]
  have la : listTruthy agents = false := by rcases ha with h | h <;> simp [h, listTruthy]
  have lr : listTruthy rights = false := by rcases hr with h | h <;> simp [h, listTruthy]
  simp [PremisRecord.init, lo, le, la, lr, strTruthy]

/-- C9 witness: constructing with explicitly empty object and agent lists,
absent event and rights lists, and no frompath raises the ValueError. -/
theorem C9_witness :
    PremisRecord.init (fun _ => ⟨[], [], [], []⟩) (some []) none (some []) none none =
      Except.error
        "Must supply either a valid file or at least one array of valid PREMIS objects." :=
  C9_empty_sequences_indistinguishable_from_absent _ _ _ _ _
    (Or.inr rfl) (Or.inl rfl) (Or.inr rfl) (Or.inl rfl)

/-- C10: each add-operation mutates only the registry of its own kind: for
every record and node, add_object leaves the event, agent and rights
registries and the filepath untouched, and likewise for add_event,
add_agent and add_rights. -/
theorem C10_add_operations_frame (r : PremisRecord) (n : PremisNode) :
    ((r.add_object n).events_list = r.events_list ∧
     (r.add_object n).agents_list = r.agents_list ∧
     (r.add_object n).rights_list = r.rights_list ∧
     (r.add_object n).filepath = r.filepath) ∧
    ((r.add_event n).objects_list = r.objects_list ∧
     (r.add_event n).agents_list = r.agents_list ∧
     (r.add_event n).rights_list = r.rights_list ∧
     (r.add_event n).filepath = r.filepath) ∧
    ((r.add_agent n).objects_list = r.objects_list ∧
     (r.add_agent n).events_list = r.events_list ∧
     (r.add_agent n).rights_list = r.rights_list ∧
     (r.add_agent n).filepath = r.filepath) ∧
    ((r.add_rights n).objects_list = r.objects_list ∧
     (r.add_rights n).events_list = r.events_list ∧
     (r.add_rights n).agents_list = r.agents_list ∧
     (r.add_rights n).filepath = r.filepath) :=
  ⟨⟨rfl, rfl, rfl, rfl⟩, ⟨rfl, rfl, rfl, rfl⟩, ⟨rfl, rfl, rfl, rfl⟩, ⟨rfl, rfl, rfl, rfl⟩⟩

/-- C5: construction succeeds exactly when one source is supplied: the init
guard raises the ValueError precisely when the truthy frompath flag agrees
with the truthy record-sequences flag (neither source, or both), and
returns an aggregate precisely when they differ. A sequence argument counts
as supplied when it is truthy (a non-empty list) and the path counts as
supplied when it is a non-empty string, which is how the guard reads its
arguments (see the companion claim C9 for the empty-list corner). In the
error case no aggregate is returned and no registry was built. -/
theorem C5_construction_requires_exactly_one_source
    (fs : String → ImportFactory)
    (objects events agents rights : Option (List PremisNode))
    (frompath : Option String) :
    (PremisRecord.init fs objects events agents rights frompath =
        Except.error
          "Must supply either a valid file or at least one array of valid PREMIS objects."
      ↔ strTruthy frompath =
          (listTruthy objects || listTruthy events || listTruthy agents || listTruthy rights)) ∧
    ((∃ r, PremisRecord.init fs objects events agents rights frompath = Except.ok r)
      ↔ strTruthy frompath ≠
          (listTruthy objects || listTruthy events || listTruthy agents || listTruthy rights)) := by
  cases hlt : (listTruthy objects || listTruthy events || listTruthy agents || listTruthy rights)
  · rcases frompath with _ | p
    · simp [PremisRecord.init, strTruthy, hlt]
    · cases hpe : p.isEmpty
      · simp [PremisRecord.init, strTruthy, hlt, hpe]
      · simp [PremisRecord.init, strTruthy, hlt, hpe]
  · rcases frompath with _ | p
    · simp [PremisRecord.init, strTruthy, hlt]
    · cases hpe : p.isEmpty
      · simp [PremisRecord.init, strTruthy, hlt, hpe]
      · simp [PremisRecord.init, strTruthy, hlt, hpe]

/-- Three events whose identifiers are pairwise distinct as (type, value)
pairs, yet whose first two joined registry keys coincide: a:b joined with c
and a joined with b:c both give the key a:b:c. -/
def clashE1 : PremisNode := .event ⟨⟨"a:b", "c"⟩, [], "f1"⟩

def clashE2 : PremisNode := .event ⟨⟨"a", "b:c"⟩, [], "f2"⟩

def clashE3 : PremisNode := .event ⟨⟨"x", "y"⟩, [], "f3"⟩

/-- C6 counterexample: the claim quantifies over any three events with
pairwise-distinct identifiers, but the registry key joins type and value
with a colon, which conflates distinct identifiers containing colons. The
three events here have pairwise-distinct identifier lists, yet after the
three add_event calls on a record with no stored events, get_event_list
returns two records (the second silently replaced the first in place), not
the three in call order. -/
theorem C6_counterexample :
    clashE1.identifiers ≠ clashE2.identifiers ∧
    clashE1.identifiers ≠ clashE3.identifiers ∧
    clashE2.identifiers ≠ clashE3.identifiers ∧
    ((((⟨NodeSet.empty, NodeSet.empty, NodeSet.empty, NodeSet.empty,
        none⟩ : PremisRecord).add_event clashE1).add_event clashE2).add_event
        clashE3).get_event_list = [clashE2, clashE3] ∧
    ((((⟨NodeSet.empty, NodeSet.empty, NodeSet.empty, NodeSet.empty,
        none⟩ : PremisRecord).add_event clashE1).add_event clashE2).add_event
        clashE3).get_event_list ≠ [clashE1, clashE2, clashE3] := by
  refine ⟨by decide, by decide, by decide, by decide, by decide⟩

/-- C6 amended: for a PremisRecord with no stored events and any three
events whose joined type:value registry keys are pairwise distinct (which
pairwise-distinct identifiers guarantee only when the colon-join does not
conflate them), get_event_list after the three add_event calls returns
exactly those three records in call order. -/
theorem C6_order_preservation_with_distinct_keys
    (r : PremisRecord) (d1 d2 d3 : NodeData)
    (hre : r.events_list = NodeSet.empty)
    (h12 : d1.firstId.key ≠ d2.firstId.key)
    (h13 : d1.firstId.key ≠ d3.firstId.key)
    (h23 : d2.firstId.key ≠ d3.firstId.key) :
    (((r.add_event (.event d1)).add_event (.event d2)).add_event
        (.event d3)).get_event_list
      = [.event d1, .event d2, .event d3] := by
  have hev : (((r.add_event (.event d1)).add_event (.event d2)).add_event
      (.event d3)).events_list
      = ((r.events_list.append (.event d1)).append (.event d2)).append (.event d3) := rfl
  rw [PremisRecord.get_event_list, hev, hre]
  rw [NodeSet.append_eq, NodeSet.append_eq, NodeSet.append_eq]
  simp [NodeSet.empty, dictInsert, PremisNode.key, PremisNode.data, NodeSet.allNodes,
    h12, h13, h23]

/-- C6 amended witness: three concrete events with distinct keys come back
in call order. -/
theorem C6_order_preservation_witness :
    ((((⟨NodeSet.empty, NodeSet.empty, NodeSet.empty, NodeSet.empty,
        none⟩ : PremisRecord).add_event
        (.event ⟨⟨"t1", "v1"⟩, [], "f1"⟩)).add_event
        (.event ⟨⟨"t2", "v2"⟩, [], "f2"⟩)).add_event
        (.event ⟨⟨"t3", "v3"⟩, [], "f3"⟩)).get_event_list
      = [.event ⟨⟨"t1", "v1"⟩, [], "f1"⟩, .event ⟨⟨"t2", "v2"⟩, [], "f2"⟩,
         .event ⟨⟨"t3", "v3"⟩, [], "f3"⟩] :=
  C6_order_preservation_with_distinct_keys _ _ _ _ rfl (by decide) (by decide) (by decide)

/-- C8: the exported tree of every PremisRecord has a root carrying exactly
the two namespace declarations and the fixed version attribute 3.0, and its
children are the tree projections of the stored records in the fixed kind
order Object, Event, Rights, Agent, each kind in its registry insertion
order. -/
theorem C8_export_root_attributes_and_child_order (r : PremisRecord) :
    (r.to_tree).attrs =
      [("xmlns:premis", "http://www.loc.gov/premis/v3"),
       ("xmlns:xsi", "http://www.w3.org/2001/XMLSchema-instance"),
       ("version", "3.0")] ∧
    (r.to_tree).children =
      (r.objects_list.allNodes ++ r.events_list.allNodes ++
       r.rights_list.allNodes ++ r.agents_list.allNodes).map PremisNode.toXML := by
  constructor
  · show attrSet (attrSet (attrSet [] _ _) _ _) _ _ = _
    simp only [attrSet]
    rw [if_neg (by decide), if_neg (by decide)]
  · rw [to_tree_children_eq]
    rfl

/-! Helper lemmas for the export and re-import round trip. -/

lemma kind_exclusive (n : PremisNode) :
    (n.isObject = true → n.isEvent = false ∧ n.isAgent = false ∧ n.isRights = false) ∧
    (n.isEvent = true → n.isObject = false ∧ n.isAgent = false ∧ n.isRights = false) ∧
    (n.isAgent = true → n.isObject = false ∧ n.isEvent = false ∧ n.isRights = false) ∧
    (n.isRights = true → n.isObject = false ∧ n.isEvent = false ∧ n.isAgent = false) := by
  cases n <;>
    simp [PremisNode.isObject, PremisNode.isEvent, PremisNode.isAgent, PremisNode.isRights]

lemma NodeSet.allNodes_forall (ns : NodeSet) (P : PremisNode → Bool)
    (h : ∀ p ∈ ns.nodes, P p.2 = true) :
    ∀ x ∈ ns.allNodes, P x = true := by
  intro x hx
  rcases List.mem_map.mp hx with ⟨p, hp, he⟩
  rw [← he]
  exact h p hp

/-- Re-importing the exported tree of a record whose registries are
well-formed and kind-pure reproduces the four registries exactly. -/
lemma reimport_reproduces_registries (r : PremisRecord)
    (hWFo : r.objects_list.WF) (hWFe : r.events_list.WF)
    (hWFa : r.agents_list.WF) (hWFr : r.rights_list.WF)
    (hPo : ∀ x ∈ r.objects_list.allNodes, x.isObject = true)
    (hPe : ∀ x ∈ r.events_list.allNodes, x.isEvent = true)
    (hPa : ∀ x ∈ r.agents_list.allNodes, x.isAgent = true)
    (hPr : ∀ x ∈ r.rights_list.allNodes, x.isRights = true)
    (p : Option String) :
    PremisRecord.populate_from_file
        ⟨NodeSet.empty, NodeSet.empty, NodeSet.empty, NodeSet.empty, p⟩
        (XMLNodeFactory r.to_tree)
      = ⟨r.objects_list, r.events_list, r.agents_list, r.rights_list, p⟩ := by
  have hchild : ((r.to_tree).children.map TreeElem.ofNode) = r.iterList := by
    rw [to_tree_children_eq, List.map_map]
    have hco : TreeElem.ofNode ∘ PremisNode.toXML = id := rfl
    rw [hco, List.map_id]
  have hsplit : r.iterList =
      r.objects_list.allNodes ++ r.events_list.allNodes ++
      r.rights_list.allNodes ++ r.agents_list.allNodes := rfl
  have hOe : ∀ x ∈ r.objects_list.allNodes, ¬ x.isEvent = true := by
    intro x hx
    simp [((kind_exclusive x).1 (hPo x hx)).1]
  have hOa : ∀ x ∈ r.objects_list.allNodes, ¬ x.isAgent = true := by
    intro x hx
    simp [((kind_exclusive x).1 (hPo x hx)).2.1]
  have hOr : ∀ x ∈ r.objects_list.allNodes, ¬ x.isRights = true := by
    intro x hx
    simp [((kind_exclusive x).1 (hPo x hx)).2.2]
  have hEo : ∀ x ∈ r.events_list.allNodes, ¬ x.isObject = true := by
    intro x hx
    simp [((kind_exclusive x).2.1 (hPe x hx)).1]
  have hEa : ∀ x ∈ r.events_list.allNodes, ¬ x.isAgent = true := by
    intro x hx
    simp [((kind_exclusive x).2.1 (hPe x hx)).2.1]
  have hEr : ∀ x ∈ r.events_list.allNodes, ¬ x.isRights = true := by
    intro x hx
    simp [((kind_exclusive x).2.1 (hPe x hx)).2.2]
  have hAo : ∀ x ∈ r.agents_list.allNodes, ¬ x.isObject = true := by
    intro x hx
    simp [((kind_exclusive x).2.2.1 (hPa x hx)).1]
  have hAe : ∀ x ∈ r.agents_list.allNodes, ¬ x.isEvent = true := by
    intro x hx
    simp [((kind_exclusive x).2.2.1 (hPa x hx)).2.1]
  have hAr : ∀ x ∈ r.agents_list.allNodes, ¬ x.isRights = true := by
    intro x hx
    simp [((kind_exclusive x).2.2.1 (hPa x hx)).2.2]
  have hRo : ∀ x ∈ r.rights_list.allNodes, ¬ x.isObject = true := by
    intro x hx
    simp [((kind_exclusive x).2.2.2 (hPr x hx)).1]
  have hRe : ∀ x ∈ r.rights_list.allNodes, ¬ x.isEvent = true := by
    intro x hx
    simp [((kind_exclusive x).2.2.2 (hPr x hx)).2.1]
  have hRa : ∀ x ∈ r.rights_list.allNodes, ¬ x.isAgent = true := by
    intro x hx
    simp [((kind_exclusive x).2.2.2 (hPr x hx)).2.2]
  have hfe : (XMLNodeFactory r.to_tree).find_events = r.events_list.allNodes := by
    show ((r.to_tree).children.map TreeElem.ofNode).filter PremisNode.isEvent = _
    rw [hchild, hsplit]
    simp only [List.filter_append]
    rw [List.filter_eq_nil_iff.mpr hOe, List.filter_eq_self.mpr hPe,
      List.filter_eq_nil_iff.mpr hRe, List.filter_eq_nil_iff.mpr hAe]
    simp
  have hfa : (XMLNodeFactory r.to_tree).find_agents = r.agents_list.allNodes := by
    show ((r.to_tree).children.map TreeElem.ofNode).filter PremisNode.isAgent = _
    rw [hchild, hsplit]
    simp only [List.filter_append]
    rw [List.filter_eq_nil_iff.mpr hOa, List.filter_eq_nil_iff.mpr hEa,
      List.filter_eq_nil_iff.mpr hRa, List.filter_eq_self.mpr hPa]
    simp
  have hfr : (XMLNodeFactory r.to_tree).find_rights = r.rights_list.allNodes := by
    show ((r.to_tree).children.map TreeElem.ofNode).filter PremisNode.isRights = _
    rw [hchild, hsplit]
    simp only [List.filter_append]
    rw [List.filter_eq_nil_iff.mpr hOr, List.filter_eq_nil_iff.mpr hEr,
      List.filter_eq_self.mpr hPr, List.filter_eq_nil_iff.mpr hAr]
    simp
  have hfo : (XMLNodeFactory r.to_tree).find_objects = r.objects_list.allNodes := by
    show ((r.to_tree).children.map TreeElem.ofNode).filter PremisNode.isObject = _
    rw [hchild, hsplit]
    simp only [List.filter_append]
    rw [List.filter_eq_self.mpr hPo, List.filter_eq_nil_iff.mpr hEo,
      List.filter_eq_nil_iff.mpr hRo, List.filter_eq_nil_iff.mpr hAo]
    simp
  rw [populate_from_file_eq, hfe, hfa, hfr, hfo]
  rw [NodeSet.refold _ hWFe, NodeSet.refold _ hWFa,
    NodeSet.refold _ hWFr, NodeSet.refold _ hWFo]

/-- C7: for every document accepted by the import boundary and every pair
of non-empty document paths, constructing a PremisRecord from the document,
exporting it with to_tree, and constructing a second PremisRecord from the
exported tree succeeds and yields an aggregate equal to the first under the
set-equivalence equality of records. The import and export boundary
(factories.py and the toXML projections of nodes.py, neither under src/) is
modelled from the spec as lossless per record. -/
theorem C7_import_export_reimport_round_trip
    (d : ETDocument) (p1 p2 : String)
    (h1 : strTruthy (some p1) = true) (h2 : strTruthy (some p2) = true) :
    ∃ r1 r2,
      PremisRecord.init (fun _ => XMLNodeFactory d) none none none none (some p1)
        = Except.ok r1 ∧
      PremisRecord.init (fun _ => XMLNodeFactory r1.to_tree) none none none none (some p2)
        = Except.ok r2 ∧
      PremisRecord.eq r1 r2 = true := by
  have hpe1 : p1.isEmpty = false := by simpa [strTruthy] using h1
  have hpe2 : p2.isEmpty = false := by simpa [strTruthy] using h2
  refine ⟨PremisRecord.populate_from_file
      ⟨NodeSet.empty, NodeSet.empty, NodeSet.empty, NodeSet.empty, some p1⟩
      (XMLNodeFactory d),
    PremisRecord.populate_from_file
      ⟨NodeSet.empty, NodeSet.empty, NodeSet.empty, NodeSet.empty, some p2⟩
      (XMLNodeFactory (PremisRecord.populate_from_file
        ⟨NodeSet.empty, NodeSet.empty, NodeSet.empty, NodeSet.empty, some p1⟩
        (XMLNodeFactory d)).to_tree), ?_, ?_, ?_⟩
  · simp [PremisRecord.init, strTruthy, listTruthy, hpe1]
  · simp [PremisRecord.init, strTruthy, listTruthy, hpe2]
  · apply eq_true_of_iterList_eq
    rw [reimport_reproduces_registries]
    · rfl
    · rw [populate_from_file_eq]
      exact NodeSet.WF_foldl _ _ NodeSet.WF_empty
    · rw [populate_from_file_eq]
      exact NodeSet.WF_foldl _ _ NodeSet.WF_empty
    · rw [populate_from_file_eq]
      exact NodeSet.WF_foldl _ _ NodeSet.WF_empty
    · rw [populate_from_file_eq]
      exact NodeSet.WF_foldl _ _ NodeSet.WF_empty
    · rw [populate_from_file_eq]
      refine NodeSet.allNodes_forall _ _ (NodeSet.allP_foldl _ _ _ ?_ ?_)
      · intro p hp
        simp [NodeSet.empty] at hp
      · intro n hn
        exact (List.mem_filter.mp hn).2
    · rw [populate_from_file_eq]
      refine NodeSet.allNodes_forall _ _ (NodeSet.allP_foldl _ _ _ ?_ ?_)
      · intro p hp
        simp [NodeSet.empty] at hp
      · intro n hn
        exact (List.mem_filter.mp hn).2
    · rw [populate_from_file_eq]
      refine NodeSet.allNodes_forall _ _ (NodeSet.allP_foldl _ _ _ ?_ ?_)
      · intro p hp
        simp [NodeSet.empty] at hp
      · intro n hn
        exact (List.mem_filter.mp hn).2
    · rw [populate_from_file_eq]
      refine NodeSet.allNodes_forall _ _ (NodeSet.allP_foldl _ _ _ ?_ ?_)
      · intro p hp
        simp [NodeSet.empty] at hp
      · intro n hn
        exact (List.mem_filter.mp hn).2

/-- C7 witness: a concrete three-record document round-trips through import,
export and re-import into an equal aggregate. -/
theorem C7_round_trip_witness :
    ∃ r1 r2,
      PremisRecord.init
          (fun _ => XMLNodeFactory
            ⟨[], [⟨.event ⟨⟨"local", "E1"⟩, [], "ingest"⟩⟩,
                  ⟨.object ⟨⟨"local", "O1"⟩, [], "file"⟩⟩,
                  ⟨.agent ⟨⟨"local", "A1"⟩, [], "curator"⟩⟩]⟩)
          none none none none (some "kitchen-sink.xml")
        = Except.ok r1 ∧
      PremisRecord.init (fun _ => XMLNodeFactory r1.to_tree)
          none none none none (some "out.xml")
        = Except.ok r2 ∧
      PremisRecord.eq r1 r2 = true :=
  C7_import_export_reimport_round_trip
    ⟨[], [⟨.event ⟨⟨"local", "E1"⟩, [], "ingest"⟩⟩,
          ⟨.object ⟨⟨"local", "O1"⟩, [], "file"⟩⟩,
          ⟨.agent ⟨⟨"local", "A1"⟩, [], "curator"⟩⟩]⟩
    "kitchen-sink.xml" "out.xml" (by decide) (by decide)
